import Mathlib

/-!
# ascii-image-converter: the command of `cmd/root.go`

A shallow embedding of `cmd/root.go` (package `cmd`) and of the standard-library
string functions it relies on.

* A Go `string` is a Lean `String`, read as its sequence of characters; lengths and
  indices count characters (for the ASCII glyphs of the ramps, and for the newline
  separator, these are the byte lengths and byte indices of Go).
* A Go `[]string` is a `List String`, a `[][]string` a `List (List String)`.
  The `dimensions` slice, which can be `nil`, is an `Option (List Int)`.
* The package `image_manipulation`, `os.Open`, `image.Decode` and
  `ioutil.WriteFile` are not part of `cmd/root.go`; they are the fields of a
  `World`, over which every statement is quantified.
* `convertPicture` and `RunE` return an `Outcome`: the ordered log of the calls
  made to the world (and of the lines printed), together with the returned `error`.
-/

/-! ## Package `strings` -/

namespace strings

/-- Go `strings.Join(elems, sep)`: nothing for no element, the element itself for one,
otherwise the first element followed by `sep` and the next element, for each further one. -/
def Join : List String → String → String
  | [], _ => ""
  | [e], _ => e
  | e :: rest, sep => rest.foldl (fun b s => b ++ sep ++ s) e

/-- The search of `strings.Index` on character sequences: the least position at which
`substr` starts in `s`, if any. -/
def indexOfSub (substr : List Char) : List Char → Option Nat
  | [] => if substr.isPrefixOf [] then some 0 else none
  | c :: t => if substr.isPrefixOf (c :: t) then some 0 else (indexOfSub substr t).map (· + 1)

/-- Go `strings.Index(s, substr)`: the index of the first instance of `substr` in `s`;
`none` stands for the result `-1`. -/
def Index (s substr : String) : Option Nat :=
  indexOfSub substr.data s.data

/-- Go slice expression `s[:m]`. -/
def sliceTo (s : String) (m : Nat) : String := ⟨s.data.take m⟩

/-- Go slice expression `s[m:]`. -/
def sliceFrom (s : String) (m : Nat) : String := ⟨s.data.drop m⟩

/-- The loop of `strings.Count` for a non-empty `substr`: count an instance, continue
after it. Every round removes at least one character, so `fuel` above the length of
`s` is never used up. -/
def countLoop (substr : String) : Nat → String → Nat
  | 0, _ => 0
  | fuel + 1, s =>
    match Index s substr with
    | none => 0
    | some i => 1 + countLoop substr fuel (sliceFrom s (i + substr.length))

/-- Go `strings.Count(s, substr)`: the number of non-overlapping instances of `substr`
in `s`; for the empty `substr`, one more than the number of characters. -/
def Count (s substr : String) : Nat :=
  if substr.length = 0 then s.length + 1 else countLoop substr (s.length + 1) s

/-- Go `explode(s, -1)`: `s` cut into its characters. -/
def explode (s : String) : List String :=
  s.data.map String.singleton

/-- The loop `for i < n` of `genSplit`, with `k` rounds left: cut at the first
separator, or stop when there is none; the rest of the string is the last piece. -/
def genSplitLoop (sep : String) : Nat → String → List String
  | 0, s => [s]
  | k + 1, s =>
    match Index s sep with
    | none => [s]
    | some m => sliceTo s m :: genSplitLoop sep k (sliceFrom s (m + sep.length))

/-- Go `strings.Split(s, sep)`, that is `genSplit(s, sep, 0, -1)`. -/
def Split (s sep : String) : List String :=
  if sep.length = 0 then explode s
  else
    let n := Count s sep + 1
    let n := if n > s.length + 1 then s.length + 1 else n
    genSplitLoop sep (n - 1) s

end strings

/-! ## Errors -/

/-- A Go `error` value. -/
inductive GoError where
  /-- An error built by a collaborator (`os`, `image`, `ioutil`), with its message. -/
  | external (msg : String)
  /-- The result of `fmt.Errorf` without `%w`. -/
  | errorString (msg : String)
  /-- The result of `fmt.Errorf` with `%w`: the message and the wrapped error. -/
  | wrapError (msg : String) (err : GoError)
  deriving DecidableEq, Repr

namespace GoError

/-- The method `Error()`. -/
def Error : GoError → String
  | external msg => msg
  | errorString msg => msg
  | wrapError msg _ => msg

/-- The method `Unwrap()`, for `errors.Unwrap`. -/
def Unwrap : GoError → Option GoError
  | wrapError _ err => some err
  | _ => none

end GoError

namespace fmt

/-- Go `fmt.Errorf(format, n)` for a `format` that is `pre` followed by `%v`,
`n` a non-negative `int`. -/
def Errorf_v (pre : String) (n : Nat) : GoError :=
  .errorString (pre ++ toString n)

/-- Go `fmt.Errorf(format, err)` for a `format` that is `pre` followed by `%w`. -/
def Errorf_w (pre : String) (err : GoError) : GoError :=
  .wrapError (pre ++ err.Error) err

end fmt

/-! ## Package `cmd` -/

namespace cmd

/-- One observable step of the command: a call to a collaborator, or a printed line. -/
inductive Event (File Image ImgSet : Type) where
  /-- The call `os.Open(path)`. -/
  | osOpen (path : String)
  /-- The call `image.Decode(pic)`. -/
  | imageDecode (pic : File)
  /-- The call `imgMani.ConvertToTerminalSizedSlices(imData, dimensions)`. -/
  | toTerminalSizedSlices (imData : Image) (dimensions : Option (List Int))
  /-- The call `imgMani.ConvertToAsciiDetailed(imgSet)`. -/
  | toAsciiDetailed (imgSet : ImgSet)
  /-- The call `imgMani.ConvertToAsciiSimple(imgSet)`. -/
  | toAsciiSimple (imgSet : ImgSet)
  /-- The call `fmt.Println(line)`. -/
  | println (line : String)
  /-- The call `ioutil.WriteFile(name, data, perm)`. -/
  | writeFile (name : String) (data : String) (perm : Nat)
  /-- The deferred call `pic.Close()`. -/
  | close (pic : File)
  deriving DecidableEq, Repr

/-- The collaborators of `cmd/root.go`. -/
structure World (File Image ImgSet : Type) where
  /-- Go `os.Open`. -/
  osOpen : String → Except GoError File
  /-- Go `image.Decode` (the format name it also returns is ignored by the caller). -/
  imageDecode : File → Except GoError Image
  /-- The grid partitioner `imgMani.ConvertToTerminalSizedSlices`. -/
  ConvertToTerminalSizedSlices : Image → Option (List Int) → ImgSet
  /-- The long-ramp converter `imgMani.ConvertToAsciiDetailed`. -/
  ConvertToAsciiDetailed : ImgSet → List (List String)
  /-- The short-ramp converter `imgMani.ConvertToAsciiSimple`. -/
  ConvertToAsciiSimple : ImgSet → List (List String)
  /-- Go `ioutil.WriteFile`; `none` is the `nil` error. -/
  ioutilWriteFile : String → String → Nat → Option GoError

/-- What a call of the command did and returned. -/
structure Outcome (File Image ImgSet : Type) where
  /-- The steps taken, in order. -/
  trace : List (Event File Image ImgSet)
  /-- The returned `error`; `none` is `nil`. -/
  err : Option GoError
  deriving DecidableEq, Repr

/-- Go `len(dimensions)`; the length of a `nil` slice is `0`. -/
def len (dimensions : Option (List Int)) : Nat :=
  match dimensions with
  | none => 0
  | some d => d.length

/-- `flattenAscii` flattens a two-dimensional grid of ascii characters into one dimension
of lines of ascii (`cmd/root.go`, lines 90-96). -/
def flattenAscii (asciiSet : List (List String)) : List String :=
  asciiSet.foldl (fun ascii line => ascii ++ [strings.Join line ""]) []

/-- The function `convertPicture` of `cmd/root.go`, lines 56-86. -/
def convertPicture {File Image ImgSet : Type} (w : World File Image ImgSet)
    (imagePath : String) (isComplex : Bool) (dimensions : Option (List Int))
    (save : Bool) : Outcome File Image ImgSet :=
  match w.osOpen imagePath with
  | .error err => ⟨[.osOpen imagePath], some (fmt.Errorf_w "Unable to open file: " err)⟩
  | .ok pic =>
    match w.imageDecode pic with
    | .error err =>
      ⟨[.osOpen imagePath, .imageDecode pic, .close pic],
        some (fmt.Errorf_w "Unable to decode file: " err)⟩
    | .ok imData =>
      let imgSet := w.ConvertToTerminalSizedSlices imData dimensions
      let t := [.osOpen imagePath, .imageDecode pic, .toTerminalSizedSlices imData dimensions]
      let step : List (List String) × List (Event File Image ImgSet) :=
        if isComplex then
          (w.ConvertToAsciiDetailed imgSet, t ++ [.toAsciiDetailed imgSet])
        else
          (w.ConvertToAsciiSimple imgSet, t ++ [.toAsciiSimple imgSet])
      let asciiSet := step.1
      let ascii := flattenAscii asciiSet
      let t := ascii.foldl (fun t line => t ++ [.println line]) step.2
      if save then
        let data := strings.Join ascii "\n"
        ⟨t ++ [.writeFile "ascii-image.txt" data 0o777, .close pic],
          w.ioutilWriteFile "ascii-image.txt" data 0o777⟩
      else
        ⟨t ++ [.close pic], none⟩

/-- The function `RunE` of `rootCmd` (`cmd/root.go`, lines 44-52), with the package
variables `compl`, `dimensions` and `save` it reads. The result `none` is the run-time
failure of `args[0]` on an empty `args` (cobra calls `RunE` with exactly one argument). -/
def RunE {File Image ImgSet : Type} (w : World File Image ImgSet)
    (compl : Bool) (dimensions : Option (List Int)) (save : Bool)
    (args : List String) : Option (Outcome File Image ImgSet) :=
  let numberOfDimensions := len dimensions
  if dimensions.isSome && numberOfDimensions != 2 then
    some ⟨[], some (fmt.Errorf_v "-d requires two dimensions got " numberOfDimensions)⟩
  else
    match args with
    | [] => none
    | imagePath :: _ => some (convertPicture w imagePath compl dimensions save)

/-! ### Reading an outcome -/

/-- The lines printed, in order. -/
def printed {File Image ImgSet : Type} (t : List (Event File Image ImgSet)) : List String :=
  t.filterMap fun e =>
    match e with
    | .println line => some line
    | _ => none

/-- The files written, in order: name, content and permission bits. -/
def written {File Image ImgSet : Type} (t : List (Event File Image ImgSet)) :
    List (String × String × Nat) :=
  t.filterMap fun e =>
    match e with
    | .writeFile name data perm => some (name, data, perm)
    | _ => none

/-- The calls to the conversion core (`image_manipulation`), in order. -/
def coreCalls {File Image ImgSet : Type} (t : List (Event File Image ImgSet)) :
    List (Event File Image ImgSet) :=
  t.filter fun e =>
    match e with
    | .toTerminalSizedSlices _ _ => true
    | .toAsciiDetailed _ => true
    | .toAsciiSimple _ => true
    | _ => false

/-- The arguments of the calls to `ConvertToAsciiDetailed`, in order. -/
def detailedCalls {File Image ImgSet : Type} (t : List (Event File Image ImgSet)) :
    List ImgSet :=
  t.filterMap fun e =>
    match e with
    | .toAsciiDetailed imgSet => some imgSet
    | _ => none

/-- The arguments of the calls to `ConvertToAsciiSimple`, in order. -/
def simpleCalls {File Image ImgSet : Type} (t : List (Event File Image ImgSet)) :
    List ImgSet :=
  t.filterMap fun e =>
    match e with
    | .toAsciiSimple imgSet => some imgSet
    | _ => none

/-! ### A small world for concrete runs -/

/-- A world in which every file opens and decodes, the partitioner keeps the requested
dimensions as the partitioned image, and the two converters return fixed grids. -/
def demoWorld : World Unit Unit (Option (List Int)) where
  osOpen := fun _ => .ok ()
  imageDecode := fun _ => .ok ()
  ConvertToTerminalSizedSlices := fun _ dimensions => dimensions
  ConvertToAsciiDetailed := fun _ => [["$", "@"], ["B", "%"]]
  ConvertToAsciiSimple := fun _ => [["#", "."], [".", "#"]]
  ioutilWriteFile := fun _ _ _ => none

/-- A world in which no file opens. -/
def noFileWorld : World Unit Unit (Option (List Int)) where
  osOpen := fun _ => .error (.external "open pic.png: no such file or directory")
  imageDecode := fun _ => .ok ()
  ConvertToTerminalSizedSlices := fun _ dimensions => dimensions
  ConvertToAsciiDetailed := fun _ => [["$", "@"], ["B", "%"]]
  ConvertToAsciiSimple := fun _ => [["#", "."], [".", "#"]]
  ioutilWriteFile := fun _ _ _ => none

/-- A world in which files open but do not decode. -/
def badImageWorld : World Unit Unit (Option (List Int)) where
  osOpen := fun _ => .ok ()
  imageDecode := fun _ => .error (.external "image: unknown format")
  ConvertToTerminalSizedSlices := fun _ dimensions => dimensions
  ConvertToAsciiDetailed := fun _ => [["$", "@"], ["B", "%"]]
  ConvertToAsciiSimple := fun _ => [["#", "."], [".", "#"]]
  ioutilWriteFile := fun _ _ _ => none

/-! ### The shape of a run that reaches the core -/

/-- The steps of a run up to and including the call of the ramp converter, once the file
has opened as `pic` and decoded as `imData`. -/
def coreTrace {File Image ImgSet : Type} (w : World File Image ImgSet) (imagePath : String)
    (isComplex : Bool) (dimensions : Option (List Int)) (pic : File) (imData : Image) :
    List (Event File Image ImgSet) :=
  [.osOpen imagePath, .imageDecode pic, .toTerminalSizedSlices imData dimensions,
    if isComplex then .toAsciiDetailed (w.ConvertToTerminalSizedSlices imData dimensions)
    else .toAsciiSimple (w.ConvertToTerminalSizedSlices imData dimensions)]

/-- The grid `asciiSet` that `convertPicture` hands to `flattenAscii` for the decoded
image `imData`: the partitioned image put through the converter `isComplex` selects. -/
def coreGrid {File Image ImgSet : Type} (w : World File Image ImgSet) (isComplex : Bool)
    (dimensions : Option (List Int)) (imData : Image) : List (List String) :=
  if isComplex then w.ConvertToAsciiDetailed (w.ConvertToTerminalSizedSlices imData dimensions)
  else w.ConvertToAsciiSimple (w.ConvertToTerminalSizedSlices imData dimensions)

/-! ### Colour, as the specification describes it -/

/-- Modelled from the spec: the averaged RGB triple of an IntensitySample ("optionally
paired with one averaged RGB triple"); `cmd/root.go` declares no such type. -/
structure RGB where
  /-- The red mean. -/
  r : Nat
  /-- The green mean. -/
  g : Nat
  /-- The blue mean. -/
  b : Nat
  deriving DecidableEq, Repr

/-- Modelled from the spec: a cell of a grid that carries colour, "each character ...
paired with its averaged color"; `cmd/root.go` declares no such type. -/
abbrev ColouredCell := Char × RGB

/-- Modelled from the spec: one way for a converter to carry the colour of a cell in the
only place the `[][]string` grid of `cmd/root.go` has for it, the string of the cell:
the character followed by one character for each of the three means. The statements
on colour are quantified over every such way; this one serves for concrete runs. -/
def demoRender (cell : ColouredCell) : String :=
  ⟨[cell.1, Char.ofNat cell.2.r, Char.ofNat cell.2.g, Char.ofNat cell.2.b]⟩

/-- Modelled from the spec: the output stage reading a cell written by `demoRender`. -/
def demoDecode (s : String) : Option ColouredCell :=
  match s.data with
  | [c, r, g, b] => some (c, ⟨r.toNat, g.toNat, b.toNat⟩)
  | _ => none

end cmd

/-! ## Lemmas on `strings.Join` and `strings.Split` -/

namespace strings

theorem foldl_sep_append (sep : String) (rest : List String) (p q : String) :
    rest.foldl (fun b s => b ++ sep ++ s) (p ++ q)
      = p ++ rest.foldl (fun b s => b ++ sep ++ s) q := by
  induction rest generalizing q with
  | nil => rfl
  | cons a rest ih =>
    simp only [List.foldl_cons]
    rw [String.append_assoc, String.append_assoc, ← String.append_assoc q, ih]

theorem Join_cons_cons (a b : String) (rest : List String) (sep : String) :
    Join (a :: b :: rest) sep = a ++ sep ++ Join (b :: rest) sep := by
  have h : Join (b :: rest) sep = rest.foldl (fun b s => b ++ sep ++ s) b := by
    cases rest <;> rfl
  rw [h]
  show rest.foldl (fun b s => b ++ sep ++ s) (a ++ sep ++ b) = _
  rw [foldl_sep_append]

/-- The characters of a joined string: the elements with the separator between them. -/
theorem Join_data (elems : List String) (sep : String) :
    (Join elems sep).data = sep.data.intercalate (elems.map String.data) := by
  induction elems with
  | nil => rfl
  | cons a rest ih =>
    cases rest with
    | nil => simp [Join, List.intercalate]
    | cons b rest =>
      rw [Join_cons_cons, String.data_append, String.data_append, ih]
      simp [List.intercalate, List.intersperse]

theorem indexOfSub_single_absent (c : Char) (a : List Char) (h : c ∉ a) :
    indexOfSub [c] a = none := by
  induction a with
  | nil => simp [indexOfSub, List.isPrefixOf]
  | cons x t ih =>
    have hx : c ≠ x := fun e => h (by simp [e])
    have ht : c ∉ t := fun e => h (by simp [e])
    simp [indexOfSub, List.isPrefixOf, hx, ih ht]

theorem indexOfSub_single_first (c : Char) (a r : List Char) (h : c ∉ a) :
    indexOfSub [c] (a ++ c :: r) = some a.length := by
  induction a with
  | nil => simp [indexOfSub, List.isPrefixOf]
  | cons x t ih =>
    have hx : c ≠ x := fun e => h (by simp [e])
    have ht : c ∉ t := fun e => h (by simp [e])
    simp [indexOfSub, List.isPrefixOf, hx, ih ht]

theorem Index_single_absent (c : Char) (a : String) (h : c ∉ a.data) :
    Index a (String.singleton c) = none :=
  indexOfSub_single_absent c a.data h

theorem Index_single_first (c : Char) (a r : String) (h : c ∉ a.data) :
    Index (a ++ String.singleton c ++ r) (String.singleton c) = some a.length := by
  unfold Index
  rw [String.data_append, String.data_append]
  simpa [String.singleton] using indexOfSub_single_first c a.data r.data h

theorem sliceTo_append (a r : String) : sliceTo (a ++ r) a.length = a := by
  apply String.ext
  show (a ++ r).data.take a.data.length = a.data
  rw [String.data_append, List.take_left]

theorem sliceFrom_append (a s r : String) :
    sliceFrom (a ++ s ++ r) (a.length + s.length) = r := by
  apply String.ext
  show (a ++ s ++ r).data.drop (a.data.length + s.data.length) = r.data
  rw [String.data_append, String.data_append, ← List.length_append, List.drop_left]

theorem countLoop_Join (c : Char) (lines : List String)
    (h : ∀ l ∈ lines, c ∉ l.data) (fuel : Nat) (hf : lines.length ≤ fuel) :
    countLoop (String.singleton c) fuel (Join lines (String.singleton c)) = lines.length - 1 := by
  induction lines generalizing fuel with
  | nil =>
    cases fuel with
    | zero => rfl
    | succ k => simp [countLoop, Join, Index, indexOfSub, List.isPrefixOf, String.singleton]
  | cons a rest ih =>
    cases fuel with
    | zero => simp at hf
    | succ k =>
      cases rest with
      | nil =>
        simp [countLoop, Join, Index_single_absent c a (h a (by simp))]
      | cons b rest =>
        rw [Join_cons_cons, countLoop, Index_single_first c a _ (h a (by simp))]
        simp only
        rw [sliceFrom_append, ih (fun l hl => h l (by simp [hl])) k (by simpa using hf)]
        simp
        omega

theorem genSplitLoop_Join (c : Char) (lines : List String) (hne : lines ≠ [])
    (h : ∀ l ∈ lines, c ∉ l.data) :
    genSplitLoop (String.singleton c) (lines.length - 1) (Join lines (String.singleton c))
      = lines := by
  induction lines with
  | nil => exact absurd rfl hne
  | cons a rest ih =>
    cases rest with
    | nil => simp [genSplitLoop, Join]
    | cons b rest =>
      rw [Join_cons_cons]
      show genSplitLoop _ ((b :: rest).length - 1 + 1) _ = _
      rw [genSplitLoop, Index_single_first c a _ (h a (by simp))]
      simp only
      rw [sliceFrom_append, String.append_assoc, sliceTo_append,
        ih (by simp) (fun l hl => h l (by simp [hl]))]

theorem length_le_Join (lines : List String) (sep : String) (hs : 0 < sep.length):
    lines.length ≤ (Join lines sep).length + 1 := by
  induction lines with
  | nil => simp
  | cons a rest ih =>
    cases rest with
    | nil => simp
    | cons b rest =>
      rw [Join_cons_cons]
      simp only [String.length_append, List.length_cons] at ih ⊢
      omega

/-- Splitting a joined string on a one-character separator that occurs in none of the
elements gives the elements back. -/
theorem Split_Join (c : Char) (lines : List String) (hne : lines ≠ [])
    (h : ∀ l ∈ lines, c ∉ l.data) :
    Split (Join lines (String.singleton c)) (String.singleton c) = lines := by
  have hc : Count (Join lines (String.singleton c)) (String.singleton c) = lines.length - 1 := by
    unfold Count
    rw [if_neg (by simp [String.singleton, String.length])]
    exact countLoop_Join c lines h _ (length_le_Join lines _ (by simp [String.singleton, String.length]))
  have hl := length_le_Join lines (String.singleton c) (by simp [String.singleton, String.length])
  have hpos : 0 < lines.length := List.length_pos.mpr hne
  unfold Split
  rw [if_neg (by simp [String.singleton, String.length])]
  simp only [hc]
  rw [if_neg (by omega)]
  have : lines.length - 1 + 1 - 1 = lines.length - 1 := by omega
  rw [this]
  exact genSplitLoop_Join c lines hne h

end strings

/-! ## Lemmas on `flattenAscii` and `convertPicture` -/

namespace cmd

theorem foldl_snoc_map {α β : Type} (f : α → β) (l : List α) (acc : List β) :
    l.foldl (fun r x => r ++ [f x]) acc = acc ++ l.map f := by
  induction l generalizing acc with
  | nil => simp
  | cons a l ih => simp [ih]

theorem flattenAscii_eq_map (asciiSet : List (List String)) :
    flattenAscii asciiSet = asciiSet.map (fun line => strings.Join line "") := by
  unfold flattenAscii
  rw [foldl_snoc_map (fun line => strings.Join line "")]
  simp

section
variable {File Image ImgSet : Type}

theorem convertPicture_ok (w : World File Image ImgSet) (imagePath : String)
    (isComplex : Bool) (dimensions : Option (List Int)) (save : Bool) (pic : File)
    (imData : Image) (ho : w.osOpen imagePath = .ok pic)
    (hd : w.imageDecode pic = .ok imData) :
    convertPicture w imagePath isComplex dimensions save =
      ⟨coreTrace w imagePath isComplex dimensions pic imData
          ++ (flattenAscii (coreGrid w isComplex dimensions imData)).map .println
          ++ (if save then
                [.writeFile "ascii-image.txt"
                  (strings.Join (flattenAscii (coreGrid w isComplex dimensions imData)) "\n")
                  0o777]
              else [])
          ++ [.close pic],
        if save then
          w.ioutilWriteFile "ascii-image.txt"
            (strings.Join (flattenAscii (coreGrid w isComplex dimensions imData)) "\n") 0o777
        else none⟩ := by
  unfold convertPicture coreTrace coreGrid
  simp only [ho, hd]
  cases isComplex <;> cases save <;> simp [foldl_snoc_map]

theorem convertPicture_open_error (w : World File Image ImgSet) (imagePath : String)
    (isComplex : Bool) (dimensions : Option (List Int)) (save : Bool) (err : GoError)
    (ho : w.osOpen imagePath = .error err) :
    convertPicture w imagePath isComplex dimensions save =
      ⟨[.osOpen imagePath], some (fmt.Errorf_w "Unable to open file: " err)⟩ := by
  unfold convertPicture
  simp only [ho]

theorem convertPicture_decode_error (w : World File Image ImgSet) (imagePath : String)
    (isComplex : Bool) (dimensions : Option (List Int)) (save : Bool) (pic : File)
    (err : GoError) (ho : w.osOpen imagePath = .ok pic)
    (hd : w.imageDecode pic = .error err) :
    convertPicture w imagePath isComplex dimensions save =
      ⟨[.osOpen imagePath, .imageDecode pic, .close pic],
        some (fmt.Errorf_w "Unable to decode file: " err)⟩ := by
  unfold convertPicture
  simp only [ho, hd]

theorem printed_append (s t : List (Event File Image ImgSet)) :
    printed (s ++ t) = printed s ++ printed t := by
  simp [printed]

theorem written_append (s t : List (Event File Image ImgSet)) :
    written (s ++ t) = written s ++ written t := by
  simp [written]

theorem coreCalls_append (s t : List (Event File Image ImgSet)) :
    coreCalls (s ++ t) = coreCalls s ++ coreCalls t := by
  simp [coreCalls]

theorem detailedCalls_append (s t : List (Event File Image ImgSet)) :
    detailedCalls (s ++ t) = detailedCalls s ++ detailedCalls t := by
  simp [detailedCalls]

theorem simpleCalls_append (s t : List (Event File Image ImgSet)) :
    simpleCalls (s ++ t) = simpleCalls s ++ simpleCalls t := by
  simp [simpleCalls]

theorem printed_println (l : List String) :
    printed (l.map (Event.println : String → Event File Image ImgSet)) = l := by
  induction l with
  | nil => rfl
  | cons a l ih => simpa [printed] using ih

theorem written_println (l : List String) :
    written (l.map (Event.println : String → Event File Image ImgSet)) = [] := by
  induction l with
  | nil => rfl
  | cons a l ih => simp [written]

theorem coreCalls_println (l : List String) :
    coreCalls (l.map (Event.println : String → Event File Image ImgSet)) = [] := by
  induction l with
  | nil => rfl
  | cons a l ih => simp [coreCalls]

theorem detailedCalls_println (l : List String) :
    detailedCalls (l.map (Event.println : String → Event File Image ImgSet)) = [] := by
  induction l with
  | nil => rfl
  | cons a l ih => simp [detailedCalls]

theorem simpleCalls_println (l : List String) :
    simpleCalls (l.map (Event.println : String → Event File Image ImgSet)) = [] := by
  induction l with
  | nil => rfl
  | cons a l ih => simp [simpleCalls]

theorem printed_ok (w : World File Image ImgSet) (imagePath : String)
    (isComplex : Bool) (dimensions : Option (List Int)) (save : Bool) (pic : File)
    (imData : Image) (ho : w.osOpen imagePath = .ok pic)
    (hd : w.imageDecode pic = .ok imData) :
    printed (convertPicture w imagePath isComplex dimensions save).trace
      = flattenAscii (coreGrid w isComplex dimensions imData) := by
  rw [convertPicture_ok w imagePath isComplex dimensions save pic imData ho hd]
  simp only [printed_append, printed_println]
  cases isComplex <;> cases save <;> simp [printed, coreTrace]

theorem written_ok (w : World File Image ImgSet) (imagePath : String)
    (isComplex : Bool) (dimensions : Option (List Int)) (save : Bool) (pic : File)
    (imData : Image) (ho : w.osOpen imagePath = .ok pic)
    (hd : w.imageDecode pic = .ok imData) :
    written (convertPicture w imagePath isComplex dimensions save).trace
      = if save then
          [("ascii-image.txt",
            strings.Join (flattenAscii (coreGrid w isComplex dimensions imData)) "\n", 0o777)]
        else [] := by
  rw [convertPicture_ok w imagePath isComplex dimensions save pic imData ho hd]
  simp only [written_append, written_println]
  cases isComplex <;> cases save <;> simp [written, coreTrace]

theorem coreCalls_ok (w : World File Image ImgSet) (imagePath : String)
    (isComplex : Bool) (dimensions : Option (List Int)) (save : Bool) (pic : File)
    (imData : Image) (ho : w.osOpen imagePath = .ok pic)
    (hd : w.imageDecode pic = .ok imData) :
    coreCalls (convertPicture w imagePath isComplex dimensions save).trace
      = [.toTerminalSizedSlices imData dimensions,
          if isComplex then .toAsciiDetailed (w.ConvertToTerminalSizedSlices imData dimensions)
          else .toAsciiSimple (w.ConvertToTerminalSizedSlices imData dimensions)] := by
  rw [convertPicture_ok w imagePath isComplex dimensions save pic imData ho hd]
  simp only [coreCalls_append, coreCalls_println]
  cases isComplex <;> cases save <;> simp [coreCalls, coreTrace]

theorem detailedCalls_ok (w : World File Image ImgSet) (imagePath : String)
    (isComplex : Bool) (dimensions : Option (List Int)) (save : Bool) (pic : File)
    (imData : Image) (ho : w.osOpen imagePath = .ok pic)
    (hd : w.imageDecode pic = .ok imData) :
    detailedCalls (convertPicture w imagePath isComplex dimensions save).trace
      = if isComplex then [w.ConvertToTerminalSizedSlices imData dimensions] else [] := by
  rw [convertPicture_ok w imagePath isComplex dimensions save pic imData ho hd]
  simp only [detailedCalls_append, detailedCalls_println]
  cases isComplex <;> cases save <;> simp [detailedCalls, coreTrace]

theorem simpleCalls_ok (w : World File Image ImgSet) (imagePath : String)
    (isComplex : Bool) (dimensions : Option (List Int)) (save : Bool) (pic : File)
    (imData : Image) (ho : w.osOpen imagePath = .ok pic)
    (hd : w.imageDecode pic = .ok imData) :
    simpleCalls (convertPicture w imagePath isComplex dimensions save).trace
      = if isComplex then [] else [w.ConvertToTerminalSizedSlices imData dimensions] := by
  rw [convertPicture_ok w imagePath isComplex dimensions save pic imData ho hd]
  simp only [simpleCalls_append, simpleCalls_println]
  cases isComplex <;> cases save <;> simp [simpleCalls, coreTrace]

theorem err_ok (w : World File Image ImgSet) (imagePath : String)
    (isComplex : Bool) (dimensions : Option (List Int)) (save : Bool) (pic : File)
    (imData : Image) (ho : w.osOpen imagePath = .ok pic)
    (hd : w.imageDecode pic = .ok imData) :
    (convertPicture w imagePath isComplex dimensions save).err
      = if save then
          w.ioutilWriteFile "ascii-image.txt"
            (strings.Join (flattenAscii (coreGrid w isComplex dimensions imData)) "\n") 0o777
        else none := by
  rw [convertPicture_ok w imagePath isComplex dimensions save pic imData ho hd]

theorem convertPicture_trace_ne_nil (w : World File Image ImgSet) (imagePath : String)
    (isComplex : Bool) (dimensions : Option (List Int)) (save : Bool) :
    (convertPicture w imagePath isComplex dimensions save).trace ≠ [] := by
  cases ho : w.osOpen imagePath with
  | error err => rw [convertPicture_open_error w imagePath isComplex dimensions save err ho]; simp
  | ok pic =>
    cases hd : w.imageDecode pic with
    | error err =>
      rw [convertPicture_decode_error w imagePath isComplex dimensions save pic err ho hd]; simp
    | ok imData =>
      rw [convertPicture_ok w imagePath isComplex dimensions save pic imData ho hd]; simp

end

end cmd

/-! ## Further lemmas on lines -/

namespace strings

theorem Join_nosep_data (row : List String) :
    (Join row "").data = (row.map String.data).flatten := by
  induction row with
  | nil => rfl
  | cons a rest ih =>
    cases rest with
    | nil => simp [Join]
    | cons b rest =>
      rw [Join_cons_cons, String.data_append, String.data_append, ih]
      simp

theorem Join_nosep_length (row : List String) (h : ∀ s ∈ row, s.length = 1) :
    (Join row "").length = row.length := by
  induction row with
  | nil => rfl
  | cons a rest ih =>
    cases rest with
    | nil => simpa [Join] using h a (by simp)
    | cons b rest =>
      rw [Join_cons_cons, String.length_append, String.length_append,
        ih (fun s hs => h s (by simp [hs])), h a (by simp)]
      simp
      omega

end strings

namespace cmd

theorem flattenAscii_shape (W : Nat) (asciiSet : List (List String))
    (hW : ∀ row ∈ asciiSet, row.length = W ∧ ∀ s ∈ row, s.length = 1) :
    (flattenAscii asciiSet).length = asciiSet.length ∧
      ∀ line ∈ flattenAscii asciiSet, line.length = W := by
  rw [flattenAscii_eq_map]
  refine ⟨by simp, fun line hline => ?_⟩
  obtain ⟨row, hrow, rfl⟩ := List.mem_map.mp hline
  rw [strings.Join_nosep_length row (hW row hrow).2]
  exact (hW row hrow).1

/-! ## The claims -/

/-- C1: for every grid `asciiSet`, `flattenAscii` returns exactly one line per row, in
the row order, and its `i`-th line is the concatenation of the strings of row `i` in
column order: the characters of the line are the characters of the cells, one cell after
the other, with nothing inserted, removed or moved. -/
theorem flattenAscii_one_line_per_row (asciiSet : List (List String)) :
    (flattenAscii asciiSet).length = asciiSet.length ∧
    ∀ i : Nat, (flattenAscii asciiSet)[i]? =
      (asciiSet[i]?).map (fun row => String.mk (row.map String.data).flatten) := by
  rw [flattenAscii_eq_map]
  refine ⟨by simp, fun i => ?_⟩
  rw [List.getElem?_map]
  cases asciiSet[i]? with
  | none => rfl
  | some row =>
    simp only [Option.map_some']
    congr 1
    apply String.ext
    exact strings.Join_nosep_data row

/-- C2: for a grid of `H` rows, each holding `W` one-character strings, `flattenAscii`
returns exactly `H` lines of exactly `W` characters each, and a run of `convertPicture`
whose converter returns that grid prints exactly `H` lines of `W` characters each. -/
theorem explicit_grid_H_lines_of_W_characters (W H : Nat) (asciiSet : List (List String))
    (hH : asciiSet.length = H)
    (hW : ∀ row ∈ asciiSet, row.length = W ∧ ∀ s ∈ row, s.length = 1) :
    ((flattenAscii asciiSet).length = H ∧ ∀ line ∈ flattenAscii asciiSet, line.length = W) ∧
    ∀ {File Image ImgSet : Type} (w : World File Image ImgSet) (imagePath : String)
      (isComplex : Bool) (dimensions : Option (List Int)) (save : Bool) (pic : File)
      (imData : Image),
      w.osOpen imagePath = .ok pic → w.imageDecode pic = .ok imData →
      coreGrid w isComplex dimensions imData = asciiSet →
      (printed (convertPicture w imagePath isComplex dimensions save).trace).length = H ∧
      ∀ line ∈ printed (convertPicture w imagePath isComplex dimensions save).trace,
        line.length = W := by
  have hs := flattenAscii_shape W asciiSet hW
  rw [hH] at hs
  refine ⟨hs, ?_⟩
  intro File Image ImgSet w imagePath isComplex dimensions save pic imData ho hd hg
  rw [printed_ok w imagePath isComplex dimensions save pic imData ho hd, hg]
  exact hs

/-- C2, at the grid of two rows of two glyphs that the short-ramp converter of `demoWorld`
returns for the request `-d 2,2`. -/
theorem explicit_grid_H_lines_of_W_characters_witness :
    ((flattenAscii [["#", "."], [".", "#"]]).length = 2 ∧
      ∀ line ∈ flattenAscii [["#", "."], [".", "#"]], line.length = 2) ∧
    (printed (convertPicture demoWorld "pic.png" false (some [2, 2]) false).trace).length = 2 ∧
    ∀ line ∈ printed (convertPicture demoWorld "pic.png" false (some [2, 2]) false).trace,
      line.length = 2 :=
  ⟨(explicit_grid_H_lines_of_W_characters 2 2 [["#", "."], [".", "#"]] rfl (by decide)).1,
    (explicit_grid_H_lines_of_W_characters 2 2 [["#", "."], [".", "#"]] rfl (by decide)).2
      demoWorld "pic.png" false (some [2, 2]) false () () rfl rfl rfl⟩

/-- C3, as stated, fails: with the dimensions `0,5` the command of `demoWorld` returns no
error at all, after handing the dimensions to the partitioner and printing two lines. -/
theorem zero_dimension_not_rejected :
    RunE demoWorld false (some [0, 5]) false ["pic.png"] =
      some ⟨[.osOpen "pic.png", .imageDecode (), .toTerminalSizedSlices () (some [0, 5]),
              .toAsciiSimple (some [0, 5]), .println "#.", .println ".#", .close ()],
            none⟩ := by
  decide

/-- C3, amended: the command checks the number of dimensions only. A non-nil `dimensions`
whose length is not 2 fails with "-d requires two dimensions got N" and nothing is opened,
printed or written. Two values, whatever they are (zero and negative included), are not
checked: `RunE` returns the result of `convertPicture`, which, once the file has opened
and decoded, hands exactly these values to `ConvertToTerminalSizedSlices` and returns
`nil` or the result of the file write. -/
theorem RunE_checks_the_count_only {File Image ImgSet : Type} (w : World File Image ImgSet)
    (compl save : Bool) (imagePath : String) :
    (∀ d : List Int, d.length ≠ 2 →
      RunE w compl (some d) save [imagePath] =
        some ⟨[], some (.errorString ("-d requires two dimensions got " ++ toString d.length))⟩) ∧
    (∀ width height : Int,
      RunE w compl (some [width, height]) save [imagePath] =
        some (convertPicture w imagePath compl (some [width, height]) save) ∧
      ∀ (pic : File) (imData : Image),
        w.osOpen imagePath = .ok pic → w.imageDecode pic = .ok imData →
        coreCalls (convertPicture w imagePath compl (some [width, height]) save).trace =
          [.toTerminalSizedSlices imData (some [width, height]),
            if compl then
              .toAsciiDetailed (w.ConvertToTerminalSizedSlices imData (some [width, height]))
            else
              .toAsciiSimple (w.ConvertToTerminalSizedSlices imData (some [width, height]))] ∧
        (convertPicture w imagePath compl (some [width, height]) save).err =
          if save then
            w.ioutilWriteFile "ascii-image.txt"
              (strings.Join
                (flattenAscii (coreGrid w compl (some [width, height]) imData)) "\n") 0o777
          else none) := by
  refine ⟨fun d hd => ?_, fun width height => ⟨?_, fun pic imData ho hd => ⟨?_, ?_⟩⟩⟩
  · simp [RunE, len, hd, fmt.Errorf_v]
  · simp [RunE, len]
  · exact coreCalls_ok w imagePath compl _ save pic imData ho hd
  · exact err_ok w imagePath compl _ save pic imData ho hd

/-- C3, amended, at the requests `-d 7` and `-d 0,-5` in `demoWorld`. -/
theorem RunE_checks_the_count_only_witness :
    RunE demoWorld false (some [7]) false ["pic.png"] =
      some ⟨[], some (.errorString ("-d requires two dimensions got " ++ toString 1))⟩ ∧
    coreCalls (convertPicture demoWorld "pic.png" false (some [0, -5]) false).trace =
      [.toTerminalSizedSlices () (some [0, -5]), .toAsciiSimple (some [0, -5])] ∧
    (convertPicture demoWorld "pic.png" false (some [0, -5]) false).err = none :=
  ⟨(RunE_checks_the_count_only demoWorld false false "pic.png").1 [7] (by decide),
    ((RunE_checks_the_count_only demoWorld false false "pic.png").2 0 (-5)).2 () () rfl rfl⟩

end cmd

namespace cmd

/-- C4: when opening the file fails, or when decoding it fails, `convertPicture` returns
an error that wraps the cause, with the message "Unable to open file: " (respectively
"Unable to decode file: ") followed by the message of the cause, and the conversion core
is never called: no call to `ConvertToTerminalSizedSlices`, `ConvertToAsciiSimple` or
`ConvertToAsciiDetailed`, no line printed, no file written. -/
theorem upstream_failure_skips_the_core {File Image ImgSet : Type}
    (w : World File Image ImgSet) (imagePath : String) (isComplex : Bool)
    (dimensions : Option (List Int)) (save : Bool) :
    (∀ cause : GoError, w.osOpen imagePath = .error cause →
      (convertPicture w imagePath isComplex dimensions save).err =
        some (.wrapError ("Unable to open file: " ++ cause.Error) cause) ∧
      coreCalls (convertPicture w imagePath isComplex dimensions save).trace = [] ∧
      printed (convertPicture w imagePath isComplex dimensions save).trace = [] ∧
      written (convertPicture w imagePath isComplex dimensions save).trace = []) ∧
    (∀ (pic : File) (cause : GoError),
      w.osOpen imagePath = .ok pic → w.imageDecode pic = .error cause →
      (convertPicture w imagePath isComplex dimensions save).err =
        some (.wrapError ("Unable to decode file: " ++ cause.Error) cause) ∧
      coreCalls (convertPicture w imagePath isComplex dimensions save).trace = [] ∧
      printed (convertPicture w imagePath isComplex dimensions save).trace = [] ∧
      written (convertPicture w imagePath isComplex dimensions save).trace = []) := by
  refine ⟨fun cause ho => ?_, fun pic cause ho hd => ?_⟩
  · rw [convertPicture_open_error w imagePath isComplex dimensions save cause ho]
    simp [fmt.Errorf_w, coreCalls, printed, written]
  · rw [convertPicture_decode_error w imagePath isComplex dimensions save pic cause ho hd]
    simp [fmt.Errorf_w, coreCalls, printed, written]

/-- C4, at a file that does not open (`noFileWorld`) and at one that does not decode
(`badImageWorld`), with `--save` set. -/
theorem upstream_failure_skips_the_core_witness :
    ((convertPicture noFileWorld "pic.png" true none true).err =
        some (.wrapError
          ("Unable to open file: " ++
            (GoError.external "open pic.png: no such file or directory").Error)
          (.external "open pic.png: no such file or directory")) ∧
      coreCalls (convertPicture noFileWorld "pic.png" true none true).trace = [] ∧
      printed (convertPicture noFileWorld "pic.png" true none true).trace = [] ∧
      written (convertPicture noFileWorld "pic.png" true none true).trace = []) ∧
    ((convertPicture badImageWorld "pic.png" true none true).err =
        some (.wrapError
          ("Unable to decode file: " ++ (GoError.external "image: unknown format").Error)
          (.external "image: unknown format")) ∧
      coreCalls (convertPicture badImageWorld "pic.png" true none true).trace = [] ∧
      printed (convertPicture badImageWorld "pic.png" true none true).trace = [] ∧
      written (convertPicture badImageWorld "pic.png" true none true).trace = []) :=
  ⟨(upstream_failure_skips_the_core noFileWorld "pic.png" true none true).1 _ rfl,
    (upstream_failure_skips_the_core badImageWorld "pic.png" true none true).2 () _ rfl rfl⟩

/-- C5: `RunE` returns the error "-d requires two dimensions got N", `N` the number of
values given, having done nothing else (nothing opened, converted, printed or written),
if and only if `dimensions` is not nil and `N` is not 2; when `dimensions` is nil or
holds exactly 2 values, `RunE` calls `convertPicture` with the first argument as the
image path and `compl`, `dimensions` and `save` unchanged, and returns its result. -/
theorem RunE_requires_two_dimensions {File Image ImgSet : Type}
    (w : World File Image ImgSet) (compl : Bool) (dimensions : Option (List Int))
    (save : Bool) (imagePath : String) :
    (RunE w compl dimensions save [imagePath] =
        some ⟨[], some (.errorString
          ("-d requires two dimensions got " ++ toString (len dimensions)))⟩
      ↔ (dimensions ≠ none ∧ len dimensions ≠ 2)) ∧
    ((dimensions = none ∨ len dimensions = 2) →
      RunE w compl dimensions save [imagePath] =
        some (convertPicture w imagePath compl dimensions save)) := by
  have hne := convertPicture_trace_ne_nil w imagePath compl dimensions save
  have key : ∀ e : Option GoError,
      convertPicture w imagePath compl dimensions save ≠ ⟨[], e⟩ := by
    intro e h
    exact hne (by rw [h])
  cases dimensions with
  | none => simpa [RunE, len] using key _
  | some d =>
    by_cases hd : d.length = 2
    · have := key (some (.errorString ("-d requires two dimensions got " ++ toString 2)))
      simpa [RunE, len, hd] using this
    · simp [RunE, len, hd, fmt.Errorf_v]

/-- C5, at the requests `-d 7,8,9` (three values) and `-d 2,2`, and without `-d`,
in `demoWorld`. -/
theorem RunE_requires_two_dimensions_witness :
    RunE demoWorld true (some [7, 8, 9]) true ["pic.png"] =
        some ⟨[], some (.errorString
          ("-d requires two dimensions got " ++ toString (len (some [7, 8, 9]))))⟩ ∧
    RunE demoWorld true (some [2, 2]) true ["pic.png"] =
        some (convertPicture demoWorld "pic.png" true (some [2, 2]) true) ∧
    RunE demoWorld true none true ["pic.png"] =
        some (convertPicture demoWorld "pic.png" true none true) :=
  ⟨(RunE_requires_two_dimensions demoWorld true (some [7, 8, 9]) true "pic.png").1.mpr
      (by decide),
    (RunE_requires_two_dimensions demoWorld true (some [2, 2]) true "pic.png").2
      (Or.inr rfl),
    (RunE_requires_two_dimensions demoWorld true none true "pic.png").2 (Or.inl rfl)⟩

/-- C6: in every successful call of `convertPicture` (one that returns `nil`) the file
opened and decoded, the partitioner was called once, and exactly one of the two ramp
converters was called, exactly once, on the whole partitioned image: the detailed one
when `isComplex` is true, the simple one when it is false; the other one was not
called, and every printed line comes from the grid of the converter that was. -/
theorem ramp_selected_once {File Image ImgSet : Type} (w : World File Image ImgSet)
    (imagePath : String) (isComplex : Bool) (dimensions : Option (List Int)) (save : Bool)
    (hok : (convertPicture w imagePath isComplex dimensions save).err = none) :
    ∃ (pic : File) (imData : Image),
      w.osOpen imagePath = .ok pic ∧ w.imageDecode pic = .ok imData ∧
      (isComplex = true →
        coreCalls (convertPicture w imagePath isComplex dimensions save).trace =
          [.toTerminalSizedSlices imData dimensions,
            .toAsciiDetailed (w.ConvertToTerminalSizedSlices imData dimensions)] ∧
        detailedCalls (convertPicture w imagePath isComplex dimensions save).trace =
          [w.ConvertToTerminalSizedSlices imData dimensions] ∧
        simpleCalls (convertPicture w imagePath isComplex dimensions save).trace = [] ∧
        printed (convertPicture w imagePath isComplex dimensions save).trace =
          flattenAscii
            (w.ConvertToAsciiDetailed (w.ConvertToTerminalSizedSlices imData dimensions))) ∧
      (isComplex = false →
        coreCalls (convertPicture w imagePath isComplex dimensions save).trace =
          [.toTerminalSizedSlices imData dimensions,
            .toAsciiSimple (w.ConvertToTerminalSizedSlices imData dimensions)] ∧
        detailedCalls (convertPicture w imagePath isComplex dimensions save).trace = [] ∧
        simpleCalls (convertPicture w imagePath isComplex dimensions save).trace =
          [w.ConvertToTerminalSizedSlices imData dimensions] ∧
        printed (convertPicture w imagePath isComplex dimensions save).trace =
          flattenAscii
            (w.ConvertToAsciiSimple (w.ConvertToTerminalSizedSlices imData dimensions))) := by
  cases ho : w.osOpen imagePath with
  | error cause =>
    rw [convertPicture_open_error w imagePath isComplex dimensions save cause ho] at hok
    simp at hok
  | ok pic =>
    cases hd : w.imageDecode pic with
    | error cause =>
      rw [convertPicture_decode_error w imagePath isComplex dimensions save pic cause ho hd]
        at hok
      simp at hok
    | ok imData =>
      refine ⟨pic, imData, rfl, hd, ?_, ?_⟩
      · intro hc
        subst hc
        refine ⟨?_, ?_, ?_, ?_⟩
        · simpa using coreCalls_ok w imagePath true dimensions save pic imData ho hd
        · simpa using detailedCalls_ok w imagePath true dimensions save pic imData ho hd
        · simpa using simpleCalls_ok w imagePath true dimensions save pic imData ho hd
        · simpa [coreGrid] using printed_ok w imagePath true dimensions save pic imData ho hd
      · intro hc
        subst hc
        refine ⟨?_, ?_, ?_, ?_⟩
        · simpa using coreCalls_ok w imagePath false dimensions save pic imData ho hd
        · simpa using detailedCalls_ok w imagePath false dimensions save pic imData ho hd
        · simpa using simpleCalls_ok w imagePath false dimensions save pic imData ho hd
        · simpa [coreGrid] using printed_ok w imagePath false dimensions save pic imData ho hd

/-- C6, at the successful run of `demoWorld` with `--complex` and `--save`. -/
theorem ramp_selected_once_witness :
    (convertPicture demoWorld "pic.png" true none true).err = none ∧
    ∃ (pic : Unit) (imData : Unit),
      demoWorld.osOpen "pic.png" = .ok pic ∧ demoWorld.imageDecode pic = .ok imData ∧
      (true = true →
        coreCalls (convertPicture demoWorld "pic.png" true none true).trace =
          [.toTerminalSizedSlices imData none,
            .toAsciiDetailed (demoWorld.ConvertToTerminalSizedSlices imData none)] ∧
        detailedCalls (convertPicture demoWorld "pic.png" true none true).trace =
          [demoWorld.ConvertToTerminalSizedSlices imData none] ∧
        simpleCalls (convertPicture demoWorld "pic.png" true none true).trace = [] ∧
        printed (convertPicture demoWorld "pic.png" true none true).trace =
          flattenAscii
            (demoWorld.ConvertToAsciiDetailed
              (demoWorld.ConvertToTerminalSizedSlices imData none))) ∧
      (true = false →
        coreCalls (convertPicture demoWorld "pic.png" true none true).trace =
          [.toTerminalSizedSlices imData none,
            .toAsciiSimple (demoWorld.ConvertToTerminalSizedSlices imData none)] ∧
        detailedCalls (convertPicture demoWorld "pic.png" true none true).trace = [] ∧
        simpleCalls (convertPicture demoWorld "pic.png" true none true).trace =
          [demoWorld.ConvertToTerminalSizedSlices imData none] ∧
        printed (convertPicture demoWorld "pic.png" true none true).trace =
          flattenAscii
            (demoWorld.ConvertToAsciiSimple
              (demoWorld.ConvertToTerminalSizedSlices imData none))) :=
  ⟨rfl, ramp_selected_once demoWorld "pic.png" true none true rfl⟩

end cmd

namespace cmd

theorem take_cons_drop {α : Type} (l : List α) (j : Nat) (x : α) (h : l[j]? = some x) :
    l = l.take j ++ x :: l.drop (j + 1) := by
  induction l generalizing j with
  | nil => simp at h
  | cons a rest ih =>
    cases j with
    | zero =>
      simp only [List.getElem?_cons_zero, Option.some.injEq] at h
      simp [h]
    | succ n =>
      simp only [List.getElem?_cons_succ] at h
      simpa using ih n h

theorem flatten_length_of_width {α : Type} (f : α → String) (k : Nat) (l : List α)
    (h : ∀ c ∈ l, (f c).length = k) :
    ((l.map fun c => (f c).data).flatten).length = l.length * k := by
  induction l with
  | nil => simp
  | cons a rest ih =>
    have ha : (f a).data.length = k := h a (by simp)
    have hr := ih (fun c hc => h c (by simp [hc]))
    simp only [List.map_cons, List.flatten_cons, List.length_append, List.length_cons, ha, hr]
    rw [Nat.add_mul, Nat.one_mul, Nat.add_comm]

/-- C7: when colour is carried, which the `[][]string` grid allows only inside the
string of each cell, written there by the converter in any way `render`, `flattenAscii`
keeps the pairing of each character with the colour of its cell: line `i` holds the
rendering of the cell in row `i`, column `j`, whole and unchanged, after the renderings
of the cells before it and before those of the cells after it; and when the renderings
of the row have one width `k`, the `j`-th block of `k` characters of line `i` is read
back, by any `decode` that reads the renderings of the row, as exactly that cell: its
character and its RGB triple. -/
theorem flattenAscii_keeps_colour_pairing (render : ColouredCell → String)
    (grid : List (List ColouredCell)) (i j : Nat) (row : List ColouredCell)
    (cell : ColouredCell) (hi : grid[i]? = some row) (hj : row[j]? = some cell) :
    ∃ line, (flattenAscii (grid.map fun r => r.map render))[i]? = some line ∧
      line.data =
        ((row.take j).map fun c => (render c).data).flatten ++ (render cell).data ++
          ((row.drop (j + 1)).map fun c => (render c).data).flatten ∧
      ∀ (k : Nat) (decode : String → Option ColouredCell),
        (∀ c ∈ row, (render c).length = k) → (∀ c ∈ row, decode (render c) = some c) →
        decode ⟨(line.data.drop (j * k)).take k⟩ = some cell := by
  have hsplit := take_cons_drop row j cell hj
  have hdata : (strings.Join (row.map render) "").data =
      ((row.take j).map fun c => (render c).data).flatten ++ (render cell).data ++
        ((row.drop (j + 1)).map fun c => (render c).data).flatten := by
    rw [strings.Join_nosep_data]
    conv_lhs => rw [hsplit]
    simp [Function.comp_def]
  refine ⟨strings.Join (row.map render) "", ?_, hdata, ?_⟩
  · rw [flattenAscii_eq_map, List.getElem?_map, List.getElem?_map, hi]
    rfl
  · intro k decode hlen hdec
    have hcell : cell ∈ row := List.getElem?_mem hj
    have hjlt : j < row.length := by
      rcases List.getElem?_eq_some_iff.mp hj with ⟨h, _⟩
      exact h
    have hbefore : (((row.take j).map fun c => (render c).data).flatten).length = j * k := by
      rw [flatten_length_of_width render k (row.take j)
        (fun c hc => hlen c (List.mem_of_mem_take hc)), List.length_take]
      rw [Nat.min_eq_left (Nat.le_of_lt hjlt)]
    have hmid : (render cell).data.length = k := hlen cell hcell
    have hblock : (((strings.Join (row.map render) "").data.drop (j * k)).take k)
        = (render cell).data := by
      rw [hdata, List.append_assoc, ← hbefore, List.drop_left, ← hmid, List.take_left]
    rw [hblock]
    exact hdec cell hcell

/-- C7, at the grid of one row of two cells, a red `#` and a blue `.`, written with
`demoRender`: the second block of four characters of the line is read back by
`demoDecode` as the blue `.`. -/
theorem flattenAscii_keeps_colour_pairing_witness :
    ∃ line,
      (flattenAscii
        ([[(Char.ofNat 35, ⟨255, 0, 0⟩), (Char.ofNat 46, ⟨0, 0, 255⟩)]].map
          fun r => r.map demoRender))[0]? = some line ∧
      demoDecode ⟨(line.data.drop (1 * 4)).take 4⟩ = some (Char.ofNat 46, ⟨0, 0, 255⟩) :=
  match flattenAscii_keeps_colour_pairing demoRender
      [[(Char.ofNat 35, ⟨255, 0, 0⟩), (Char.ofNat 46, ⟨0, 0, 255⟩)]] 0 1
      [(Char.ofNat 35, ⟨255, 0, 0⟩), (Char.ofNat 46, ⟨0, 0, 255⟩)]
      (Char.ofNat 46, ⟨0, 0, 255⟩) rfl rfl with
  | ⟨line, hline, _, hread⟩ => ⟨line, hline, hread 4 demoDecode (by decide) (by decide)⟩

/-- C8: in every run that reaches the core, the lines printed are the elements of
`flattenAscii asciiSet`, in order, and they are all there before the first is printed:
after the calls that produce the grid come the printed lines, then the file write if
any, then the close. If `save` is true, exactly one file is written, "ascii-image.txt",
and its content is these same lines joined with a single newline between consecutive
lines and none after the last; `convertPicture` returns the result of the write. If
`save` is false no file is written and `nil` is returned. -/
theorem lines_printed_then_saved {File Image ImgSet : Type} (w : World File Image ImgSet)
    (imagePath : String) (isComplex : Bool) (dimensions : Option (List Int)) (save : Bool)
    (pic : File) (imData : Image)
    (ho : w.osOpen imagePath = .ok pic) (hd : w.imageDecode pic = .ok imData) :
    printed (convertPicture w imagePath isComplex dimensions save).trace =
      flattenAscii (coreGrid w isComplex dimensions imData) ∧
    (∃ before after,
      (convertPicture w imagePath isComplex dimensions save).trace =
        before ++ (flattenAscii (coreGrid w isComplex dimensions imData)).map .println
          ++ after ∧
      printed before = [] ∧ written before = [] ∧ printed after = []) ∧
    (strings.Join (flattenAscii (coreGrid w isComplex dimensions imData)) "\n").data =
      "\n".data.intercalate
        ((flattenAscii (coreGrid w isComplex dimensions imData)).map String.data) ∧
    (save = true →
      written (convertPicture w imagePath isComplex dimensions save).trace =
        [("ascii-image.txt",
          strings.Join (flattenAscii (coreGrid w isComplex dimensions imData)) "\n", 0o777)] ∧
      (convertPicture w imagePath isComplex dimensions save).err =
        w.ioutilWriteFile "ascii-image.txt"
          (strings.Join (flattenAscii (coreGrid w isComplex dimensions imData)) "\n") 0o777) ∧
    (save = false →
      written (convertPicture w imagePath isComplex dimensions save).trace = [] ∧
      (convertPicture w imagePath isComplex dimensions save).err = none) := by
  refine ⟨printed_ok w imagePath isComplex dimensions save pic imData ho hd, ?_,
    strings.Join_data _ _, ?_, ?_⟩
  · refine ⟨coreTrace w imagePath isComplex dimensions pic imData,
      (if save then
          [.writeFile "ascii-image.txt"
            (strings.Join (flattenAscii (coreGrid w isComplex dimensions imData)) "\n")
            0o777]
        else []) ++ [.close pic], ?_, ?_, ?_, ?_⟩
    · rw [convertPicture_ok w imagePath isComplex dimensions save pic imData ho hd]
      simp
    · cases isComplex <;> simp [coreTrace, printed]
    · cases isComplex <;> simp [coreTrace, written]
    · cases save <;> simp [printed]
  · intro hs
    subst hs
    refine ⟨?_, ?_⟩
    · simpa using written_ok w imagePath isComplex dimensions true pic imData ho hd
    · simpa using err_ok w imagePath isComplex dimensions true pic imData ho hd
  · intro hs
    subst hs
    refine ⟨?_, ?_⟩
    · simpa using written_ok w imagePath isComplex dimensions false pic imData ho hd
    · simpa using err_ok w imagePath isComplex dimensions false pic imData ho hd

/-- C8, at the run of `demoWorld` with `--save`: two lines printed, then saved with one
newline between them. -/
theorem lines_printed_then_saved_witness :
    printed (convertPicture demoWorld "pic.png" false none true).trace = ["#.", ".#"] ∧
    written (convertPicture demoWorld "pic.png" false none true).trace =
      [("ascii-image.txt", "#.\n.#", 0o777)] ∧
    (convertPicture demoWorld "pic.png" false none true).err = none :=
  ⟨(lines_printed_then_saved demoWorld "pic.png" false none true () () rfl rfl).1,
    ((lines_printed_then_saved demoWorld "pic.png" false none true () () rfl rfl).2.2.2.1
      rfl).1,
    ((lines_printed_then_saved demoWorld "pic.png" false none true () () rfl rfl).2.2.2.1
      rfl).2⟩

/-- C9: two applications of `flattenAscii` to the same grid return equal lines, and the
lines `convertPicture` prints and saves are a function of the decoded image, the
dimensions and `isComplex` only: two runs, in two worlds that share the partitioner and
the two ramp converters, on files that decode to the same image, print the same lines
and, when both save, write the same file, whatever the paths, the file handles, the
results of the writes and the `save` flags of the two runs are. -/
theorem same_input_same_lines {File Image ImgSet : Type}
    (w₁ w₂ : World File Image ImgSet) (imagePath₁ imagePath₂ : String)
    (isComplex : Bool) (dimensions : Option (List Int)) (save₁ save₂ : Bool)
    (pic₁ pic₂ : File) (imData : Image)
    (ho₁ : w₁.osOpen imagePath₁ = .ok pic₁) (hd₁ : w₁.imageDecode pic₁ = .ok imData)
    (ho₂ : w₂.osOpen imagePath₂ = .ok pic₂) (hd₂ : w₂.imageDecode pic₂ = .ok imData)
    (hpart : w₁.ConvertToTerminalSizedSlices = w₂.ConvertToTerminalSizedSlices)
    (hdet : w₁.ConvertToAsciiDetailed = w₂.ConvertToAsciiDetailed)
    (hsim : w₁.ConvertToAsciiSimple = w₂.ConvertToAsciiSimple) :
    (∀ g₁ g₂ : List (List String), g₁ = g₂ → flattenAscii g₁ = flattenAscii g₂) ∧
    printed (convertPicture w₁ imagePath₁ isComplex dimensions save₁).trace =
      printed (convertPicture w₂ imagePath₂ isComplex dimensions save₂).trace ∧
    printed (convertPicture w₁ imagePath₁ isComplex dimensions save₁).trace =
      flattenAscii (coreGrid w₁ isComplex dimensions imData) ∧
    (save₁ = true → save₂ = true →
      written (convertPicture w₁ imagePath₁ isComplex dimensions save₁).trace =
        written (convertPicture w₂ imagePath₂ isComplex dimensions save₂).trace) := by
  have hg : coreGrid w₁ isComplex dimensions imData = coreGrid w₂ isComplex dimensions imData := by
    unfold coreGrid
    rw [hpart, hdet, hsim]
  refine ⟨fun g₁ g₂ h => by rw [h], ?_, ?_, ?_⟩
  · rw [printed_ok w₁ imagePath₁ isComplex dimensions save₁ pic₁ imData ho₁ hd₁,
      printed_ok w₂ imagePath₂ isComplex dimensions save₂ pic₂ imData ho₂ hd₂, hg]
  · exact printed_ok w₁ imagePath₁ isComplex dimensions save₁ pic₁ imData ho₁ hd₁
  · intro h₁ h₂
    rw [written_ok w₁ imagePath₁ isComplex dimensions save₁ pic₁ imData ho₁ hd₁,
      written_ok w₂ imagePath₂ isComplex dimensions save₂ pic₂ imData ho₂ hd₂, hg, h₁, h₂]

/-- C9, at two runs of `demoWorld` on two paths, the first without and the second with
`--save`. -/
theorem same_input_same_lines_witness :
    printed (convertPicture demoWorld "a.png" true (some [2, 2]) false).trace =
      printed (convertPicture demoWorld "b.png" true (some [2, 2]) true).trace :=
  (same_input_same_lines demoWorld demoWorld "a.png" "b.png" true (some [2, 2]) false true
    () () () rfl rfl rfl rfl rfl rfl rfl).2.1

/-- C10: for every non-empty sequence of lines produced by `flattenAscii` in which no
line contains a newline character, splitting the saved content
`strings.Join lines "\n"` on "\n" returns exactly the original lines (same count, same
order, same contents); for the empty sequence the saved content is the empty string,
which splits into one empty line rather than into no line. -/
theorem saved_text_round_trip :
    (∀ asciiSet : List (List String), flattenAscii asciiSet ≠ [] →
      (∀ line ∈ flattenAscii asciiSet, Char.ofNat 10 ∉ line.data) →
      strings.Split (strings.Join (flattenAscii asciiSet) "\n") "\n" = flattenAscii asciiSet) ∧
    strings.Join (flattenAscii []) "\n" = "" ∧
    strings.Split (strings.Join (flattenAscii []) "\n") "\n" = [""] := by
  refine ⟨fun asciiSet hne hnl => ?_, by decide, by decide⟩
  exact strings.Split_Join (Char.ofNat 10) (flattenAscii asciiSet) hne hnl

/-- C10, at the grid of two rows of two glyphs. -/
theorem saved_text_round_trip_witness :
    strings.Split (strings.Join (flattenAscii [["#", "."], [".", "#"]]) "\n") "\n" =
      flattenAscii [["#", "."], [".", "#"]] :=
  saved_text_round_trip.1 [["#", "."], [".", "#"]] (by decide) (by decide)

end cmd
